import Mathlib

/-!
Verification development for the digital-journey-story application.

The embedding below follows the TypeScript sources:
* the data model (`types.ts`),
* the generation scheduler, generation procedure and reset handler of the
  `App` component,
* the playback engine of the `StoryPlayer` component,
* the service-layer helpers `calculateTotalSegments` and
  `generateStoryOutline`.

External asynchronous calls (text generation, audio synthesis, outline
request) are abstracted by explicit outcome values; the interleaving of the
asynchronous generation pipeline with user events is modelled by an event
list acted on by a step function over the application core state.
-/

namespace DigitalJourney

/-! ## Data model (types.ts) -/

/-- Decoded audio buffer with a known duration, the result of
`decodeAudioData`; only the duration is observable by the core logic. -/
structure AudioBuf where
  duration : ℚ
deriving DecidableEq

/-- StorySegment from types.ts: 1-based index, text, optional audio. -/
structure StorySegment where
  index : Nat
  text : String
  audioBuffer : Option AudioBuf
deriving DecidableEq

/-- AudioStory from types.ts. -/
structure AudioStory where
  totalSegmentsEstimate : Nat
  outline : List String
  segments : List StorySegment
  landmarkImages : List String
deriving DecidableEq

/-- RouteDetails from types.ts (fields the core logic reads). -/
structure RouteDetails where
  startAddress : String
  endAddress : String
  durationSeconds : Nat
  voiceName : String
deriving DecidableEq

/-- AppState enum from types.ts, with its numeric values (the code compares
states with `<` and `>=`). -/
def PLANNING : Nat := 0

/-- AppState.CALCULATING_ROUTE. -/
def CALCULATING_ROUTE : Nat := 1

/-- AppState.ROUTE_CONFIRMED. -/
def ROUTE_CONFIRMED : Nat := 2

/-- AppState.GENERATING_INITIAL_SEGMENT. -/
def GENERATING_INITIAL_SEGMENT : Nat := 3

/-- AppState.READY_TO_PLAY. -/
def READY_TO_PLAY : Nat := 4

/-! ## Service layer (geminiService.ts) -/

/-- calculateTotalSegments: `Math.min(Math.max(2, Math.ceil(durationSeconds / 60)), 4)`. -/
def calculateTotalSegments (durationSeconds : Nat) : Nat :=
  min (max 2 ((durationSeconds + 59) / 60)) 4

/-- The generic filler hint used by the outline fallback branch. -/
def fillerHint : String := "एक पावन यात्रा की शुरुआत।"

/-- generateStoryOutline: the provider response is abstracted as
`some hints` (the parsed JSON array of strings) or `none` (any error or
timeout, the catch branch).  On success the code returns
`JSON.parse(text).slice(0, totalSegments)`; on failure it returns
`Array(totalSegments).fill(fillerHint)`. -/
def generateStoryOutline (parsed : Option (List String)) (totalSegments : Nat) : List String :=
  match parsed with
  | some hints => hints.take totalSegments
  | none => List.replicate totalSegments fillerHint

/-! ## Application core state (App component) -/

/-- The App component state relevant to the generation pipeline:
`appState`, `route`, `story`, `currentPlayingIndex`, `smoothProgress`,
the `isGeneratingRef` lock and the `isBackgroundGenerating` mirror flag.
`inflight` records the indices of the generation attempts currently in
flight (between lock acquisition and the `finally` block); it is bookkeeping
for stating the single-flight property, not a source variable. -/
structure CoreState where
  appState : Nat
  route : Option RouteDetails
  story : Option AudioStory
  currentPlayingIndex : Nat
  smoothProgress : ℚ
  isGenerating : Bool
  isBackgroundGenerating : Bool
  inflight : List Nat
deriving DecidableEq

/-- The initial App state: PLANNING, no route, no story, cursor at 0,
progress 0, lock released. -/
def initCore : CoreState :=
  { appState := PLANNING
    route := none
    story := none
    currentPlayingIndex := 0
    smoothProgress := 0
    isGenerating := false
    isBackgroundGenerating := false
    inflight := [] }

/-- The scheduler effect (App, lines 92-99): whenever story, route, appState
or currentPlayingIndex change, if the journey is active and
`totalGenerated < currentPlayingIndex + 2` and
`totalGenerated < totalSegmentsEstimate` and the lock is free, request
generation of segment `totalGenerated + 1`. -/
def scheduleCheck (st : CoreState) : Option Nat :=
  match st.story, st.route with
  | some story, some _ =>
    if st.appState < READY_TO_PLAY then none
    else
      if story.segments.length < st.currentPlayingIndex + 2 ∧
          story.segments.length < story.totalSegmentsEstimate ∧
          st.isGenerating = false then
        some (story.segments.length + 1)
      else none
  | _, _ => none

/-- The synchronous prefix of `generateNextSegment` (lines 101-105): the
guard `if (!route || !story || isGeneratingRef.current) return;` followed by
acquisition of the lock and raising of the background flag. -/
def generateNextSegmentStart (st : CoreState) (index : Nat) : CoreState :=
  if st.route = none ∨ st.story = none ∨ st.isGenerating = true then st
  else
    { st with
        isGenerating := true
        isBackgroundGenerating := true
        inflight := st.inflight ++ [index] }

/-- Outcome of the awaited external calls of one generation attempt:
both succeed, the text request fails or times out, or the audio request
fails or times out after a successful text request. -/
inductive GenOutcome where
  | success (text : String) (audio : AudioBuf)
  | textFailure
  | audioFailure (text : String)
deriving DecidableEq

/-- The functional story update of `generateNextSegment` (lines 119-125):
insert the completed segment only if no segment with that index exists,
then re-sort by index (`[...prev.segments, seg].sort((a, b) => a.index - b.index)`,
modelled by the stable `mergeSort` on the index order). -/
def insertSegment (story : AudioStory) (seg : StorySegment) : AudioStory :=
  if story.segments.any (fun s => s.index = seg.index) then story
  else
    { story with
        segments := (story.segments ++ [seg]).mergeSort (fun a b => decide (a.index ≤ b.index)) }

/-- The resumption of `generateNextSegment` after its awaits
(lines 106-131): on success the completed segment is inserted through the
`setStory` functional update; on either failure the catch branch only logs;
the `finally` block releases the lock and clears the background flag in all
three cases. -/
def generateNextSegmentFinish (st : CoreState) (index : Nat) (outcome : GenOutcome) : CoreState :=
  let st1 :=
    match outcome with
    | .success text audio =>
      match st.story with
      | some story =>
        { st with story := some (insertSegment story { index := index, text := text, audioBuffer := some audio }) }
      | none => st
    | .textFailure => st
    | .audioFailure _ => st
  { st1 with
      isGenerating := false
      isBackgroundGenerating := false
      inflight := st1.inflight.erase index }

/-- Outcome of the synchronous journey start (`handleGenerateStory`):
either outline, first segment text, first segment audio and landmark images
all complete, or some awaited step fails (the catch branch). -/
inductive StartOutcome where
  | success (outline : List String) (seg1Text : String) (seg1Audio : AudioBuf)
      (landmarkImages : List String)
  | failure
deriving DecidableEq

/-- handleGenerateStory (lines 134-166): set the route, and on success
install a fresh story whose only segment is chapter 1 and enter
READY_TO_PLAY; on failure fall back to PLANNING with no story change. -/
def handleGenerateStory (st : CoreState) (details : RouteDetails) (outcome : StartOutcome) :
    CoreState :=
  match outcome with
  | .success outline seg1Text seg1Audio landmarkImages =>
    { st with
        route := some details
        story := some
          { totalSegmentsEstimate := calculateTotalSegments details.durationSeconds
            outline := outline
            segments := [{ index := 1, text := seg1Text, audioBuffer := some seg1Audio }]
            landmarkImages := landmarkImages }
        appState := READY_TO_PLAY }
  | .failure => { st with route := some details, appState := PLANNING }

/-- handleReset (lines 168-176): back to PLANNING, clear route, story,
cursor and smooth progress.  The generation lock, the background flag and
any in-flight attempt are not touched by this handler. -/
def handleReset (st : CoreState) : CoreState :=
  { st with
      appState := PLANNING
      route := none
      story := none
      currentPlayingIndex := 0
      smoothProgress := 0 }

/-- The segments presented to the user: the StoryPlayer is rendered only
when `appState >= AppState.READY_TO_PLAY && story && route` (App, line 263)
and it renders `story.segments` (StoryPlayer, lines 313-324). -/
def presentedSegments (st : CoreState) : List StorySegment :=
  match st.story, st.route with
  | some s, some _ => if READY_TO_PLAY ≤ st.appState then s.segments else []
  | _, _ => []

/-- Events of the session: a journey start with its overall outcome, a run
of the scheduler effect (which, when its condition holds, synchronously
enters `generateNextSegment` up to its first await), the completion of the
in-flight generation attempt with its outcome, a reset, and the player
callbacks updating the playback cursor and the smooth progress. -/
inductive Event where
  | startJourney (details : RouteDetails) (outcome : StartOutcome)
  | schedulerFire
  | completeAttempt (outcome : GenOutcome)
  | reset
  | playerIndex (i : Nat)
  | progressUpdate (p : ℚ)
deriving DecidableEq

/-- One step of the session: `startJourney` is only reachable while the
RoutePlanner is rendered (`appState ≤ GENERATING_INITIAL_SEGMENT`, App line
245); `completeAttempt` resumes the attempt that is actually in flight. -/
def step (st : CoreState) : Event → CoreState
  | .startJourney d o =>
    if st.appState ≤ GENERATING_INITIAL_SEGMENT then handleGenerateStory st d o else st
  | .schedulerFire =>
    match scheduleCheck st with
    | some i => generateNextSegmentStart st i
    | none => st
  | .completeAttempt o =>
    match st.inflight with
    | [] => st
    | i :: _ => generateNextSegmentFinish st i o
  | .reset => handleReset st
  | .playerIndex i => { st with currentPlayingIndex := i }
  | .progressUpdate p => { st with smoothProgress := p }

/-- The state reached from the initial state by a list of events. -/
def runEvents (evs : List Event) : CoreState := evs.foldl step initCore

/-- Index-contiguity of a segment list starting at position `k`: the
segment at position `k + j` has index `k + j + 1`. -/
def contiguousFrom : Nat → List StorySegment → Bool
  | _, [] => true
  | k, s :: rest => s.index == k + 1 && contiguousFrom (k + 1) rest

/-- Index-contiguity of a segment list: position `k` holds index `k + 1`. -/
def contiguous (l : List StorySegment) : Bool := contiguousFrom 0 l

/-- Strict ascending index order over a segment list. -/
def strictByIndex (l : List StorySegment) : Prop :=
  l.Pairwise (fun a b => a.index < b.index)

/-! ## Playback engine (StoryPlayer component) -/

/-- The StoryPlayer state: the `isPlaying`, `currentSegmentIndex`,
`isBuffering` and `autoScroll` useState values, the `startTimeRef` and
`segmentOffsetRef` refs, whether `audioContextRef` has been populated, and
`source`, modelling `sourceRef`: the active `AudioBufferSourceNode` as the
segment it plays together with the offset it was started at. -/
structure PlayerState where
  isPlaying : Bool
  currentSegmentIndex : Nat
  isBuffering : Bool
  autoScroll : Bool
  hasAudioCtx : Bool
  startTime : ℚ
  segmentOffset : ℚ
  source : Option (StorySegment × ℚ)
deriving DecidableEq

/-- The player state on mount. -/
def initPlayer : PlayerState :=
  { isPlaying := false
    currentSegmentIndex := 0
    isBuffering := false
    autoScroll := true
    hasAudioCtx := false
    startTime := 0
    segmentOffset := 0
    source := none }

/-- stopAudio (lines 90-96): detach and stop the active source. -/
def stopAudio (st : PlayerState) : PlayerState := { st with source := none }

/-- playSegment (lines 98-130), at audio-clock time `now`: if the segment is
absent or has no audio, only enter Buffering; otherwise (creating the audio
context if needed) stop the previous source, start a new source at `offset`
seconds into the segment and record `startTimeRef = currentTime - offset`. -/
def playSegment (st : PlayerState) (segment : Option StorySegment) (offset : ℚ) (now : ℚ) :
    PlayerState :=
  match segment with
  | none => { st with isBuffering := true }
  | some seg =>
    match seg.audioBuffer with
    | none => { st with isBuffering := true }
    | some _ =>
      { stopAudio { st with hasAudioCtx := true } with
          source := some (seg, offset)
          startTime := now - offset }

/-- updateProgress (lines 46-60), one animation tick at audio-clock time
`now`: while `isPlaying && !isBuffering && audioContextRef.current &&
currentSegment?.audioBuffer`, emit
`(currentSegmentIndex + min(1, elapsed / duration)) / totalSegmentsEstimate`
to `onSmoothProgressUpdate`; otherwise emit nothing (the consumer keeps the
last value). -/
def updateProgress (story : AudioStory) (st : PlayerState) (now : ℚ) : Option ℚ :=
  if st.isPlaying = true ∧ st.isBuffering = false ∧ st.hasAudioCtx = true then
    match (story.segments[st.currentSegmentIndex]?).bind (fun s => s.audioBuffer) with
    | some buf =>
      some (((st.currentSegmentIndex : ℚ) + min 1 ((now - st.startTime) / buf.duration)) /
        (story.totalSegmentsEstimate : ℚ))
    | none => none
  else none

/-- handleSegmentEnd (lines 132-146), at audio-clock time `now`: advance to
`nextIndex` when `nextIndex < totalSegmentsEstimate || story.segments[nextIndex]`,
resetting the stored offset; start the next segment immediately if its audio
is present, else enter Buffering; otherwise stop playing. -/
def handleSegmentEnd (story : AudioStory) (st : PlayerState) (now : ℚ) : PlayerState :=
  if st.currentSegmentIndex + 1 < story.totalSegmentsEstimate ∨
      (story.segments[st.currentSegmentIndex + 1]?).isSome then
    match story.segments[st.currentSegmentIndex + 1]? with
    | some seg =>
      if seg.audioBuffer.isSome then
        playSegment { st with currentSegmentIndex := st.currentSegmentIndex + 1, segmentOffset := 0 }
          (some seg) 0 now
      else
        { st with
            currentSegmentIndex := st.currentSegmentIndex + 1
            segmentOffset := 0
            isBuffering := true }
    | none =>
      { st with
          currentSegmentIndex := st.currentSegmentIndex + 1
          segmentOffset := 0
          isBuffering := true }
  else { st with isPlaying := false }

/-- The buffering-resolution effect (lines 75-81), at audio-clock time
`now`: the moment the story holds audio for the current segment while the
player is buffering and playing, clear Buffering and play it from offset 0. -/
def bufferWatcher (story : AudioStory) (st : PlayerState) (now : ℚ) : PlayerState :=
  match story.segments[st.currentSegmentIndex]? with
  | some seg =>
    if st.isBuffering = true ∧ st.isPlaying = true ∧ seg.audioBuffer.isSome then
      playSegment { st with isBuffering := false } (some seg) 0 now
    else st
  | none => st

/-- togglePlayback (lines 148-166), at audio-clock time `now`: while
playing, record `segmentOffsetRef = currentTime - startTimeRef` (when the
audio context exists and not buffering), stop the source and pause; while
paused, resume the current segment from the stored offset if its audio is
present, else enter Buffering. -/
def togglePlayback (story : AudioStory) (st : PlayerState) (now : ℚ) : PlayerState :=
  if st.isPlaying then
    { stopAudio
        (if st.hasAudioCtx = true ∧ st.isBuffering = false then
          { st with segmentOffset := now - st.startTime }
        else st) with
        isPlaying := false
        autoScroll := false }
  else
    match story.segments[st.currentSegmentIndex]? with
    | some seg =>
      if seg.audioBuffer.isSome then
        { playSegment { st with isPlaying := true, isBuffering := false } (some seg)
            st.segmentOffset now with
            autoScroll := true }
      else { st with isPlaying := true, isBuffering := true }
    | none => { st with isPlaying := true, isBuffering := true }

/-! ## Spec-side definition for the progress signal -/

/-- Modelled from the spec's words for the progress signal, for comparison
with the code's `updateProgress`:
`fractionWithinChapter = min(1, elapsedSeconds / chapterDurationSeconds)`,
`globalProgress = (currentChapterIndex + fractionWithinChapter) / totalChaptersEstimate`,
clamped to `[0,1]`. -/
def specGlobalProgress (currentChapterIndex : Nat) (elapsedSeconds : ℚ)
    (chapterDurationSeconds : ℚ) (totalChaptersEstimate : Nat) : ℚ :=
  max 0 (min 1 (((currentChapterIndex : ℚ) + min 1 (elapsedSeconds / chapterDurationSeconds)) /
    (totalChaptersEstimate : ℚ)))

/-! ## Concrete sessions used as test inputs -/

/-- A four-chapter route (duration 240 s, so `calculateTotalSegments` is 4). -/
def routeA : RouteDetails :=
  { startAddress := "Delhi", endAddress := "Agra", durationSeconds := 240, voiceName := "Kore" }

/-- A two-chapter route (duration 60 s, so `calculateTotalSegments` is 2). -/
def routeB : RouteDetails :=
  { startAddress := "Pune", endAddress := "Nashik", durationSeconds := 60, voiceName := "Puck" }

/-- A session: journey A starts and buffers chapters 1 and 2, the player
advances to chapter 2, the scheduler starts generating chapter 3, the user
resets, journey B starts, and then journey A's in-flight chapter-3 request
completes into journey B's story. -/
def exStale : List Event :=
  [ .startJourney routeA (.success ["h1", "h2", "h3", "h4"] "A1" ⟨20⟩ []),
    .schedulerFire,
    .completeAttempt (.success "A2" ⟨20⟩),
    .playerIndex 1,
    .schedulerFire,
    .reset,
    .startJourney routeB (.success ["g1", "g2"] "B1" ⟨20⟩ []),
    .completeAttempt (.success "A3" ⟨20⟩) ]

/-- The story journey A holds after its first five events: chapters 1 and 2
of four, outline hints h1-h4. -/
def storyA5 : AudioStory :=
  { totalSegmentsEstimate := 4
    outline := ["h1", "h2", "h3", "h4"]
    segments :=
      [ { index := 1, text := "A1", audioBuffer := some ⟨20⟩ },
        { index := 2, text := "A2", audioBuffer := some ⟨20⟩ } ]
    landmarkImages := [] }

/-- A two-chapter story holding only chapter 1 (the spec's trigger example:
`totalChaptersEstimate = 2`, buffered chapters `[1]`). -/
def demoStory : AudioStory :=
  { totalSegmentsEstimate := 2
    outline := ["h1", "h2"]
    segments := [{ index := 1, text := "A1", audioBuffer := some ⟨20⟩ }]
    landmarkImages := [] }

/-- Chapter 2 of the demo story. -/
def demoSeg2 : StorySegment := { index := 2, text := "A2", audioBuffer := some ⟨20⟩ }

/-- An active journey over `demoStory` with the cursor on chapter 1 and the
lock free. -/
def demoCore1 : CoreState :=
  { appState := READY_TO_PLAY
    route := some routeB
    story := some demoStory
    currentPlayingIndex := 0
    smoothProgress := 0
    isGenerating := false
    isBackgroundGenerating := false
    inflight := [] }

/-- The same journey once chapter 2 exists. -/
def demoCore2 : CoreState :=
  { demoCore1 with story := some { demoStory with segments := demoStory.segments ++ [demoSeg2] } }

/-- A state whose generation lock is held. -/
def lockedCore : CoreState := { demoCore1 with isGenerating := true, inflight := [2] }

/-- A player actively playing chapter 1 of the demo story from audio-clock
time 0. -/
def demoPlayer : PlayerState :=
  { initPlayer with isPlaying := true, hasAudioCtx := true, startTime := 0 }

/-- A player buffering chapter 2 while playing. -/
def demoBufferingPlayer : PlayerState :=
  { initPlayer with
      isPlaying := true
      hasAudioCtx := true
      isBuffering := true
      currentSegmentIndex := 1 }

/-! ## Invariants of the session transition system -/

/-- The lock discipline: whenever the lock is free no attempt is in flight,
and never more than one attempt is in flight. -/
def LockInv (st : CoreState) : Prop :=
  (st.isGenerating = false → st.inflight = []) ∧ st.inflight.length ≤ 1

/-- The story ordering invariant: the stored segment list is strictly
ascending by index. -/
def StoryInv (st : CoreState) : Prop :=
  ∀ s, st.story = some s → strictByIndex s.segments

/-- The invariant maintained by every reset-free session: the lock
discipline, and that the story (when present) is index-contiguous, belongs
to an active journey, and that any in-flight attempt targets exactly the
next index. -/
def ContigInv (st : CoreState) : Prop :=
  (st.isGenerating = false → st.inflight = []) ∧
  st.inflight.length ≤ 1 ∧
  (st.story = none → st.inflight = [] ∧ st.appState ≤ GENERATING_INITIAL_SEGMENT) ∧
  ∀ s, st.story = some s → contiguous s.segments = true ∧ st.appState = READY_TO_PLAY ∧
    ∀ i ∈ st.inflight, i = s.segments.length + 1

/-! ## Helper lemmas about the insert-and-sort discipline -/

lemma strict_insert_sort {l : List StorySegment} {seg : StorySegment}
    (h : l.Pairwise (fun a b => a.index < b.index))
    (hnot : ∀ s ∈ l, s.index ≠ seg.index) :
    ((l ++ [seg]).mergeSort (fun a b => decide (a.index ≤ b.index))).Pairwise
      (fun a b => a.index < b.index) := by
  have hperm := List.mergeSort_perm (l ++ [seg]) (fun a b => decide (a.index ≤ b.index))
  have hsorted := @List.sorted_mergeSort StorySegment (fun a b => decide (a.index ≤ b.index))
    (fun a b c h1 h2 => by
      simp only [decide_eq_true_eq] at h1 h2 ⊢
      omega)
    (fun a b => by
      simp only [Bool.or_eq_true, decide_eq_true_eq]
      omega)
    (l ++ [seg])
  have hle : ((l ++ [seg]).mergeSort (fun a b => decide (a.index ≤ b.index))).Pairwise
      (fun a b => a.index ≤ b.index) :=
    hsorted.imp (fun hab => by simpa using hab)
  have hne_app : (l ++ [seg]).Pairwise (fun a b => a.index ≠ b.index) := by
    rw [List.pairwise_append]
    refine ⟨h.imp (fun hab => Nat.ne_of_lt hab), List.pairwise_singleton .., ?_⟩
    intro a ha b hb
    simp only [List.mem_singleton] at hb
    subst hb
    exact hnot a ha
  have hne : ((l ++ [seg]).mergeSort (fun a b => decide (a.index ≤ b.index))).Pairwise
      (fun a b => a.index ≠ b.index) :=
    (hperm.pairwise_iff (fun hab => hab.symm)).mpr hne_app
  exact (hle.and hne).imp (fun hab => lt_of_le_of_ne hab.1 hab.2)

lemma insertSegment_strict {story : AudioStory} {seg : StorySegment}
    (h : strictByIndex story.segments) :
    strictByIndex (insertSegment story seg).segments := by
  unfold insertSegment strictByIndex at *
  split
  · exact h
  · next hany =>
    refine strict_insert_sort h ?_
    intro s hs heq
    exact hany (List.any_eq_true.mpr ⟨s, hs, by simp [heq]⟩)

lemma contiguousFrom_bounds {l : List StorySegment} :
    ∀ {k : Nat}, contiguousFrom k l = true → ∀ s ∈ l, k < s.index ∧ s.index ≤ k + l.length := by
  induction l with
  | nil => simp
  | cons a t ih =>
    intro k h s hs
    simp only [contiguousFrom, Bool.and_eq_true, beq_iff_eq] at h
    rcases List.mem_cons.mp hs with rfl | hs
    · simp only [List.length_cons]
      omega
    · have := ih h.2 s hs
      simp only [List.length_cons]
      omega

lemma contiguousFrom_pairwise {l : List StorySegment} :
    ∀ {k : Nat}, contiguousFrom k l = true → l.Pairwise (fun a b => a.index < b.index) := by
  induction l with
  | nil => simp
  | cons a t ih =>
    intro k h
    simp only [contiguousFrom, Bool.and_eq_true, beq_iff_eq] at h
    refine List.Pairwise.cons ?_ (ih h.2)
    intro b hb
    have := contiguousFrom_bounds h.2 b hb
    omega

lemma contiguousFrom_append {l : List StorySegment} {seg : StorySegment} :
    ∀ {k : Nat}, contiguousFrom k l = true → seg.index = k + l.length + 1 →
    contiguousFrom k (l ++ [seg]) = true := by
  induction l with
  | nil =>
    intro k _ hseg
    simp only [List.length_nil] at hseg
    simp [contiguousFrom, hseg]
  | cons a t ih =>
    intro k h hseg
    simp only [contiguousFrom, Bool.and_eq_true, beq_iff_eq] at h ⊢
    refine ⟨h.1, ih h.2 ?_⟩
    simp only [List.length_cons] at hseg
    omega

lemma insertSegment_contiguous {story : AudioStory} {seg : StorySegment}
    (h : contiguous story.segments = true) (hidx : seg.index = story.segments.length + 1) :
    contiguous (insertSegment story seg).segments = true ∧
    (insertSegment story seg).segments.length = story.segments.length + 1 := by
  unfold insertSegment
  have hnotmem : (story.segments.any fun s => decide (s.index = seg.index)) = false := by
    rw [List.any_eq_false]
    intro s hs
    have := contiguousFrom_bounds (k := 0) h s hs
    simp only [decide_eq_true_eq]
    omega
  rw [if_neg (by simp [hnotmem])]
  have hsorted_app : (story.segments ++ [seg]).Pairwise
      (fun a b => decide (a.index ≤ b.index) = true) := by
    rw [List.pairwise_append]
    refine ⟨(contiguousFrom_pairwise h).imp (fun hab => by simpa using Nat.le_of_lt hab),
      List.pairwise_singleton .., ?_⟩
    intro a ha b hb
    simp only [List.mem_singleton] at hb
    subst hb
    have := contiguousFrom_bounds (k := 0) h a ha
    simp only [decide_eq_true_eq]
    omega
  rw [List.mergeSort_of_sorted hsorted_app]
  exact ⟨contiguousFrom_append h (by omega), by simp⟩

/-! ## Helper lemmas about the session transition system -/

lemma scheduleCheck_eq_some {st : CoreState} {i : Nat} (h : scheduleCheck st = some i) :
    ∃ story, st.story = some story ∧ st.route.isSome = true ∧
      READY_TO_PLAY ≤ st.appState ∧
      story.segments.length < st.currentPlayingIndex + 2 ∧
      story.segments.length < story.totalSegmentsEstimate ∧
      st.isGenerating = false ∧ i = story.segments.length + 1 := by
  unfold scheduleCheck at h
  split at h
  · next story r hstory hroute =>
    split at h
    · exact absurd h (by simp)
    · next happ =>
      split at h
      · next hc =>
        rcases hc with ⟨h1, h2, h3⟩
        refine ⟨story, hstory, by simp [hroute], Nat.le_of_not_lt happ, h1, h2, h3, ?_⟩
        exact ((Option.some.injEq ..).mp h).symm
      · exact absurd h (by simp)
  · exact absurd h (by simp)

lemma scheduleCheck_congr {st1 st2 : CoreState} (h1 : st1.story = st2.story)
    (h2 : st1.route = st2.route) (h3 : st1.appState = st2.appState)
    (h4 : st1.currentPlayingIndex = st2.currentPlayingIndex)
    (h5 : st1.isGenerating = st2.isGenerating) :
    scheduleCheck st1 = scheduleCheck st2 := by
  unfold scheduleCheck
  rw [h1, h2, h3, h4, h5]

lemma generateNextSegmentStart_fields (st : CoreState) (i : Nat) :
    (generateNextSegmentStart st i).story = st.story ∧
    (generateNextSegmentStart st i).route = st.route ∧
    (generateNextSegmentStart st i).appState = st.appState ∧
    (generateNextSegmentStart st i).currentPlayingIndex = st.currentPlayingIndex := by
  unfold generateNextSegmentStart
  split <;> simp

lemma generateNextSegmentFinish_fields (st : CoreState) (i : Nat) (o : GenOutcome) :
    (generateNextSegmentFinish st i o).inflight = st.inflight.erase i ∧
    (generateNextSegmentFinish st i o).isGenerating = false ∧
    (generateNextSegmentFinish st i o).isBackgroundGenerating = false ∧
    (generateNextSegmentFinish st i o).appState = st.appState ∧
    (generateNextSegmentFinish st i o).route = st.route ∧
    (generateNextSegmentFinish st i o).currentPlayingIndex = st.currentPlayingIndex := by
  cases o with
  | success text audio =>
    unfold generateNextSegmentFinish
    cases hst : st.story <;> simp
  | textFailure => unfold generateNextSegmentFinish; simp
  | audioFailure text => unfold generateNextSegmentFinish; simp

lemma generateNextSegmentFinish_story_success {st : CoreState} {story : AudioStory}
    (i : Nat) (text : String) (audio : AudioBuf) (hst : st.story = some story) :
    (generateNextSegmentFinish st i (.success text audio)).story =
      some (insertSegment story { index := i, text := text, audioBuffer := some audio }) := by
  unfold generateNextSegmentFinish
  rw [hst]

lemma generateNextSegmentFinish_story_failure (st : CoreState) (i : Nat) :
    (generateNextSegmentFinish st i .textFailure).story = st.story ∧
    (∀ t, (generateNextSegmentFinish st i (.audioFailure t)).story = st.story) :=
  ⟨rfl, fun _ => rfl⟩

lemma step_lockInv {st : CoreState} {e : Event} (h : LockInv st) : LockInv (step st e) := by
  cases e with
  | startJourney d o =>
    simp only [step]
    split
    · cases o <;> exact h
    · exact h
  | schedulerFire =>
    simp only [step]
    split
    · next i hsc =>
      obtain ⟨story, -, -, -, -, -, hgen, -⟩ := scheduleCheck_eq_some hsc
      unfold generateNextSegmentStart
      split
      · exact h
      · exact ⟨fun hfalse => by simp at hfalse, by simp [h.1 hgen]⟩
    · exact h
  | completeAttempt o =>
    simp only [step]
    split
    · exact h
    · next i rest hin =>
      have hrest : rest = [] := by
        have h2 := h.2
        rw [hin] at h2
        simpa using h2
      obtain ⟨hinf, hgen, -, -, -, -⟩ := generateNextSegmentFinish_fields st i o
      constructor
      · intro _
        rw [hinf, hin, hrest]
        simp
      · rw [hinf, hin, hrest]
        simp
  | reset => exact h
  | playerIndex i => exact h
  | progressUpdate p => exact h

lemma runEvents_lockInv (evs : List Event) : LockInv (runEvents evs) := by
  have hgen : ∀ (l : List Event) (st : CoreState), LockInv st → LockInv (l.foldl step st) := by
    intro l
    induction l with
    | nil => intro st h; exact h
    | cons e t ih => intro st h; exact ih _ (step_lockInv h)
  exact hgen evs initCore ⟨fun _ => rfl, by simp [initCore]⟩

lemma generateNextSegmentFinish_story_none {st : CoreState} (i : Nat) (text : String)
    (audio : AudioBuf) (hst : st.story = none) :
    (generateNextSegmentFinish st i (.success text audio)).story = none := by
  unfold generateNextSegmentFinish
  rw [hst]
  exact hst

lemma step_storyInv {st : CoreState} {e : Event} (h : StoryInv st) : StoryInv (step st e) := by
  cases e with
  | startJourney d o =>
    simp only [step]
    split
    · cases o with
      | success outline seg1Text seg1Audio landmarkImages =>
        intro s hs
        unfold handleGenerateStory at hs
        simp only [Option.some.injEq] at hs
        subst hs
        simp [strictByIndex]
      | failure => exact fun s hs => h s hs
    · exact h
  | schedulerFire =>
    simp only [step]
    split
    · next i hsc =>
      intro s hs
      rw [(generateNextSegmentStart_fields st i).1] at hs
      exact h s hs
    · exact h
  | completeAttempt o =>
    simp only [step]
    split
    · exact h
    · next i rest hin =>
      cases o with
      | success text audio =>
        intro s hs
        cases hst : st.story with
        | none => exact absurd (hs.symm.trans (generateNextSegmentFinish_story_none i text audio hst)) (by simp)
        | some story =>
          rw [generateNextSegmentFinish_story_success i text audio hst] at hs
          simp only [Option.some.injEq] at hs
          subst hs
          exact insertSegment_strict (h story hst)
      | textFailure =>
        intro s hs
        rw [(generateNextSegmentFinish_story_failure st i).1] at hs
        exact h s hs
      | audioFailure text =>
        intro s hs
        rw [(generateNextSegmentFinish_story_failure st i).2 text] at hs
        exact h s hs
  | reset =>
    intro s hs
    exact absurd hs (by simp [step, handleReset])
  | playerIndex i => exact fun s hs => h s hs
  | progressUpdate p => exact fun s hs => h s hs

lemma runEvents_storyInv (evs : List Event) : StoryInv (runEvents evs) := by
  have hgen : ∀ (l : List Event) (st : CoreState), StoryInv st → StoryInv (l.foldl step st) := by
    intro l
    induction l with
    | nil => intro st h; exact h
    | cons e t ih => intro st h; exact ih _ (step_storyInv h)
  exact hgen evs initCore (fun s hs => by simp [initCore] at hs)

lemma step_contigInv {st : CoreState} {e : Event} (hne : e ≠ Event.reset) (h : ContigInv st) :
    ContigInv (step st e) := by
  obtain ⟨hlock, hlen, hnone, hsome⟩ := h
  cases e with
  | startJourney d o =>
    simp only [step]
    split
    · next happ =>
      cases hst : st.story with
      | some s =>
        refine absurd happ ?_
        have h4 := (hsome s hst).2.1
        rw [h4]
        simp [READY_TO_PLAY, GENERATING_INITIAL_SEGMENT]
      | none =>
        obtain ⟨hin, -⟩ := hnone hst
        cases o with
        | success outline seg1Text seg1Audio landmarkImages =>
          unfold handleGenerateStory
          refine ⟨fun _ => hin, by simp [hin], by simp, ?_⟩
          intro s hs
          simp only [Option.some.injEq] at hs
          subst hs
          refine ⟨by simp [contiguous, contiguousFrom], rfl, ?_⟩
          intro i hi
          rw [hin] at hi
          simp at hi
        | failure =>
          unfold handleGenerateStory
          refine ⟨fun _ => hin, by simp [hin],
            fun _ => ⟨hin, by simp [PLANNING, GENERATING_INITIAL_SEGMENT]⟩, ?_⟩
          intro s hs
          simp only [hst] at hs
          exact absurd hs (by simp)
    · exact ⟨hlock, hlen, hnone, hsome⟩
  | schedulerFire =>
    simp only [step]
    split
    · next i hsc =>
      obtain ⟨story, hstory, hroute, -, -, -, hgen, hi⟩ := scheduleCheck_eq_some hsc
      have hin := hlock hgen
      unfold generateNextSegmentStart
      rw [if_neg (by
        push_neg
        refine ⟨?_, by simp [hstory], by simp [hgen]⟩
        rcases hr : st.route with _ | r
        · rw [hr] at hroute; simp at hroute
        · simp)]
      refine ⟨fun hfalse => by simp at hfalse, by simp [hin], ?_, ?_⟩
      · intro hnone2
        simp only [hstory] at hnone2
        exact absurd hnone2 (by simp)
      · intro s hs
        simp only [hstory, Option.some.injEq] at hs
        subst hs
        obtain ⟨hc, h4, -⟩ := hsome _ hstory
        refine ⟨hc, h4, ?_⟩
        intro j hj
        simp only [hin, List.nil_append, List.mem_singleton] at hj
        subst hj
        exact hi
    · exact ⟨hlock, hlen, hnone, hsome⟩
  | completeAttempt o =>
    simp only [step]
    split
    · exact ⟨hlock, hlen, hnone, hsome⟩
    · next i rest hin =>
      have hrest : rest = [] := by
        rw [hin] at hlen
        simpa using hlen
      cases hst : st.story with
      | none =>
        have := (hnone hst).1
        rw [hin] at this
        simp at this
      | some story =>
        obtain ⟨hcont, happ4, hidxs⟩ := hsome story hst
        have hi : i = story.segments.length + 1 := hidxs i (by simp [hin])
        obtain ⟨hinf, hgenf, -, happf, -, -⟩ := generateNextSegmentFinish_fields st i o
        have herase : st.inflight.erase i = [] := by
          rw [hin, hrest]
          simp
        cases o with
        | success text audio =>
          obtain ⟨hc2, -⟩ := @insertSegment_contiguous story
            { index := i, text := text, audioBuffer := some audio } hcont hi
          refine ⟨fun _ => ?_, ?_, ?_, ?_⟩
          · rw [hinf, herase]
          · rw [hinf, herase]
            simp
          · intro hnone2
            rw [generateNextSegmentFinish_story_success i text audio hst] at hnone2
            exact absurd hnone2 (by simp)
          · intro s hs
            rw [generateNextSegmentFinish_story_success i text audio hst] at hs
            simp only [Option.some.injEq] at hs
            subst hs
            refine ⟨hc2, happf ▸ happ4, ?_⟩
            intro j hj
            rw [hinf, herase] at hj
            simp at hj
        | textFailure =>
          refine ⟨fun _ => ?_, ?_, ?_, ?_⟩
          · rw [hinf, herase]
          · rw [hinf, herase]
            simp
          · intro hnone2
            rw [(generateNextSegmentFinish_story_failure st i).1] at hnone2
            rw [hst] at hnone2
            exact absurd hnone2 (by simp)
          · intro s hs
            rw [(generateNextSegmentFinish_story_failure st i).1, hst] at hs
            simp only [Option.some.injEq] at hs
            subst hs
            refine ⟨hcont, happf ▸ happ4, ?_⟩
            intro j hj
            rw [hinf, herase] at hj
            simp at hj
        | audioFailure text =>
          refine ⟨fun _ => ?_, ?_, ?_, ?_⟩
          · rw [hinf, herase]
          · rw [hinf, herase]
            simp
          · intro hnone2
            rw [(generateNextSegmentFinish_story_failure st i).2 text] at hnone2
            rw [hst] at hnone2
            exact absurd hnone2 (by simp)
          · intro s hs
            rw [(generateNextSegmentFinish_story_failure st i).2 text, hst] at hs
            simp only [Option.some.injEq] at hs
            subst hs
            refine ⟨hcont, happf ▸ happ4, ?_⟩
            intro j hj
            rw [hinf, herase] at hj
            simp at hj
  | reset => exact absurd rfl hne
  | playerIndex i => exact ⟨hlock, hlen, hnone, hsome⟩
  | progressUpdate p => exact ⟨hlock, hlen, hnone, hsome⟩

lemma runEvents_contigInv (evs : List Event) (hre : Event.reset ∉ evs) :
    ContigInv (runEvents evs) := by
  have hgen : ∀ (l : List Event) (st : CoreState), Event.reset ∉ l → ContigInv st →
      ContigInv (l.foldl step st) := by
    intro l
    induction l with
    | nil => intro st _ h; exact h
    | cons e t ih =>
      intro st hm h
      have hme : e ≠ Event.reset := fun he => hm (he ▸ List.mem_cons_self e t)
      exact ih _ (fun ht => hm (List.mem_cons_of_mem e ht)) (step_contigInv hme h)
  refine hgen evs initCore hre ⟨fun _ => rfl, by simp [initCore], ?_, ?_⟩
  · intro _
    exact ⟨rfl, by simp [initCore, PLANNING, GENERATING_INITIAL_SEGMENT]⟩
  · intro s hs
    simp [initCore] at hs

lemma generateNextSegmentStart_acquires {st : CoreState} (i : Nat)
    (hr : st.route.isSome = true) (hs : st.story.isSome = true) (hg : st.isGenerating = false) :
    generateNextSegmentStart st i =
      { st with
          isGenerating := true
          isBackgroundGenerating := true
          inflight := st.inflight ++ [i] } := by
  unfold generateNextSegmentStart
  rw [if_neg]
  push_neg
  refine ⟨?_, ?_, by simp [hg]⟩
  · intro h
    rw [h] at hr
    simp at hr
  · intro h
    rw [h] at hs
    simp at hs

/-! ## The claims -/

/-- Claim C1: at most one chapter generation is ever in flight; an attempt
entered while the lock is held returns immediately with no effect, and the
lock (with its background mirror flag) is released unconditionally when an
attempt ends, on the success path and on both failure paths. -/
theorem generation_single_flight :
    (∀ st i, st.isGenerating = true → generateNextSegmentStart st i = st) ∧
    (∀ st i o, (generateNextSegmentFinish st i o).isGenerating = false ∧
      (generateNextSegmentFinish st i o).isBackgroundGenerating = false) ∧
    (∀ evs, (runEvents evs).inflight.length ≤ 1) := by
  refine ⟨?_, ?_, ?_⟩
  · intro st i hgen
    unfold generateNextSegmentStart
    rw [if_pos (Or.inr (Or.inr hgen))]
  · intro st i o
    exact ⟨(generateNextSegmentFinish_fields st i o).2.1,
      (generateNextSegmentFinish_fields st i o).2.2.1⟩
  · intro evs
    exact (runEvents_lockInv evs).2

/-- Concrete instance of C1: a locked state rejects a new attempt, a
finished attempt has released the lock, and the stale-reset session never
has more than one attempt in flight. -/
theorem generation_single_flight_witness :
    generateNextSegmentStart lockedCore 3 = lockedCore ∧
    (generateNextSegmentFinish lockedCore 2 GenOutcome.textFailure).isGenerating = false ∧
    (runEvents (exStale.take 6)).inflight.length ≤ 1 :=
  ⟨generation_single_flight.1 lockedCore 3 rfl,
   (generation_single_flight.2.1 lockedCore 2 GenOutcome.textFailure).1,
   generation_single_flight.2.2 (exStale.take 6)⟩

/-- Claim C2: during an active journey, the scheduler effect requests
chapter buffered + 1 exactly when buffered < currentPlayingIndex + 2 and
buffered < totalChaptersEstimate and no generation is in flight; with
estimate 2, buffered chapters [1] and cursor 0 it requests chapter 2, and
once chapter 2 exists it requests nothing more. -/
theorem scheduler_trigger_condition :
    (∀ st story, st.story = some story → st.route.isSome = true →
      READY_TO_PLAY ≤ st.appState →
      (scheduleCheck st = some (story.segments.length + 1) ↔
        (story.segments.length < st.currentPlayingIndex + 2 ∧
         story.segments.length < story.totalSegmentsEstimate ∧
         st.isGenerating = false))) ∧
    scheduleCheck demoCore1 = some 2 ∧
    scheduleCheck demoCore2 = none := by
  refine ⟨?_, rfl, rfl⟩
  intro st story hstory hroute happ
  constructor
  · intro h
    obtain ⟨story2, hstory2, -, -, h1, h2, h3, -⟩ := scheduleCheck_eq_some h
    rw [hstory] at hstory2
    injection hstory2 with he
    subst he
    exact ⟨h1, h2, h3⟩
  · rintro ⟨h1, h2, h3⟩
    rcases hr : st.route with _ | r
    · rw [hr] at hroute
      simp at hroute
    · simp only [scheduleCheck, hstory, hr]
      rw [if_neg (Nat.not_lt.mpr happ), if_pos ⟨h1, h2, h3⟩]

/-- Concrete instance of C2's general trigger equivalence, at the demo
journey state. -/
theorem scheduler_trigger_condition_witness :
    scheduleCheck demoCore1 = some (demoStory.segments.length + 1) ↔
      (demoStory.segments.length < demoCore1.currentPlayingIndex + 2 ∧
       demoStory.segments.length < demoStory.totalSegmentsEstimate ∧
       demoCore1.isGenerating = false) :=
  scheduler_trigger_condition.1 demoCore1 demoStory rfl rfl (by decide)

/-- Claim C3: across every session — any interleaving of chapter
completions, including stale completions surviving a reset — the stored
story never holds two chapters with the same index and reads in strictly
ascending index order; the insert is idempotent: a completion whose index
is already present leaves the story unchanged. -/
theorem story_strictly_ordered :
    (∀ evs s, (runEvents evs).story = some s →
      s.segments.Pairwise (fun a b => a.index < b.index) ∧
      (s.segments.map StorySegment.index).Nodup) ∧
    (∀ story seg, (∃ s ∈ story.segments, s.index = seg.index) →
      insertSegment story seg = story) := by
  constructor
  · intro evs s hs
    have hp := runEvents_storyInv evs s hs
    refine ⟨hp, ?_⟩
    have hmap : (s.segments.map StorySegment.index).Pairwise (fun a b => a ≠ b) := by
      rw [List.pairwise_map]
      exact hp.imp (fun hab => Nat.ne_of_lt hab)
    exact hmap
  · rintro story seg ⟨s, hs, he⟩
    unfold insertSegment
    rw [if_pos (List.any_eq_true.mpr ⟨s, hs, by simp [he]⟩)]

unseal List.merge List.mergeSort in
/-- Concrete instance of C3: the story after the first five events of the
stale session is strictly ordered, and re-delivering chapter 2 to it is a
no-op. -/
theorem story_strictly_ordered_witness :
    (storyA5.segments.Pairwise (fun a b => a.index < b.index) ∧
      (storyA5.segments.map StorySegment.index).Nodup) ∧
    insertSegment storyA5 { index := 2, text := "dup", audioBuffer := none } = storyA5 :=
  ⟨story_strictly_ordered.1 (exStale.take 5) storyA5 rfl,
   story_strictly_ordered.2 storyA5 { index := 2, text := "dup", audioBuffer := none }
     ⟨{ index := 2, text := "A2", audioBuffer := some ⟨20⟩ }, by simp [storyA5], rfl⟩⟩

/-- Claim C4: a failed or timed-out chapter-text or chapter-audio request
leaves the story unchanged and releases the lock; the failed attempt ends
with nothing in flight (no retry within the attempt), and a later scheduler
evaluation requests the same still-missing index again. -/
theorem generation_failure_clean :
    (∀ st i, (generateNextSegmentFinish st i GenOutcome.textFailure).story = st.story ∧
      (generateNextSegmentFinish st i GenOutcome.textFailure).isGenerating = false) ∧
    (∀ st i t, (generateNextSegmentFinish st i (GenOutcome.audioFailure t)).story = st.story ∧
      (generateNextSegmentFinish st i (GenOutcome.audioFailure t)).isGenerating = false) ∧
    (∀ st i, scheduleCheck st = some i → st.inflight = [] →
      (generateNextSegmentFinish (generateNextSegmentStart st i) i
        GenOutcome.textFailure).inflight = [] ∧
      scheduleCheck (generateNextSegmentFinish (generateNextSegmentStart st i) i
        GenOutcome.textFailure) = some i) := by
  refine ⟨?_, ?_, ?_⟩
  · intro st i
    exact ⟨(generateNextSegmentFinish_story_failure st i).1,
      (generateNextSegmentFinish_fields st i GenOutcome.textFailure).2.1⟩
  · intro st i t
    exact ⟨(generateNextSegmentFinish_story_failure st i).2 t,
      (generateNextSegmentFinish_fields st i (GenOutcome.audioFailure t)).2.1⟩
  · intro st i hsc hin
    obtain ⟨story, hstory, hroute, happ, h1, h2, hgen, hi⟩ := scheduleCheck_eq_some hsc
    have hstart := generateNextSegmentStart_acquires i hroute (by simp [hstory]) hgen
    obtain ⟨hinf, hgenf, -, happf, hroutef, hidxf⟩ :=
      generateNextSegmentFinish_fields (generateNextSegmentStart st i) i GenOutcome.textFailure
    have hinf2 : (generateNextSegmentFinish (generateNextSegmentStart st i) i
        GenOutcome.textFailure).inflight = [] := by
      rw [hinf, hstart]
      show (st.inflight ++ [i]).erase i = []
      rw [hin]
      simp
    refine ⟨hinf2, ?_⟩
    have hcongr : scheduleCheck (generateNextSegmentFinish (generateNextSegmentStart st i) i
        GenOutcome.textFailure) = scheduleCheck st := by
      refine scheduleCheck_congr ?_ ?_ ?_ ?_ ?_
      · rw [(generateNextSegmentFinish_story_failure _ i).1, hstart]
      · rw [hroutef, hstart]
      · rw [happf, hstart]
      · rw [hidxf, hstart]
      · rw [hgenf, hgen]
    rw [hcongr, hsc]

/-- Concrete instance of C4: a text failure for chapter 2 of the demo
journey ends with nothing in flight and the scheduler immediately asks for
chapter 2 again. -/
theorem generation_failure_clean_witness :
    (generateNextSegmentFinish (generateNextSegmentStart demoCore1 2) 2
      GenOutcome.textFailure).inflight = [] ∧
    scheduleCheck (generateNextSegmentFinish (generateNextSegmentStart demoCore1 2) 2
      GenOutcome.textFailure) = some 2 :=
  generation_failure_clean.2.2 demoCore1 2 rfl rfl

/-- Claim C9 (amended): the outline request returns the provider's ordered
hint list truncated to the first totalChapters entries — its length is
min totalChapters (provider length), not always totalChapters — and on
failure it returns the single generic filler hint repeated exactly
totalChapters times. -/
theorem outline_length (parsed : List String) (totalSegments : Nat) :
    generateStoryOutline (some parsed) totalSegments = parsed.take totalSegments ∧
    (generateStoryOutline (some parsed) totalSegments).length = min totalSegments parsed.length ∧
    generateStoryOutline none totalSegments = List.replicate totalSegments fillerHint ∧
    (generateStoryOutline none totalSegments).length = totalSegments := by
  refine ⟨rfl, ?_, rfl, ?_⟩
  · simp [generateStoryOutline]
  · simp [generateStoryOutline]

/-- Counterexample to C9 as stated: an outline request whose provider
response parses to an empty hint array with totalChapters = 2 returns a
sequence of length 0, not totalChapters. -/
theorem outline_length_counterexample :
    (generateStoryOutline (some []) 2).length = 0 ∧
    (generateStoryOutline (some []) 2).length ≠ 2 :=
  ⟨rfl, by decide⟩

/-- Claim C5: on an animation tick while playing and not buffering (audio
context live, current chapter's audio present, non-negative elapsed time,
cursor within the estimate), the emitted global progress value equals the
spec's `(currentChapterIndex + min(1, elapsed / duration)) /
totalChaptersEstimate` clamped to `[0,1]`. -/
theorem progress_tick_formula (story : AudioStory) (st : PlayerState) (now : ℚ) (buf : AudioBuf)
    (hplay : st.isPlaying = true) (hbuf : st.isBuffering = false) (hctx : st.hasAudioCtx = true)
    (hseg : (story.segments[st.currentSegmentIndex]?).bind (fun s => s.audioBuffer) = some buf)
    (hdur : 0 < buf.duration) (hnow : st.startTime ≤ now)
    (hidx : st.currentSegmentIndex < story.totalSegmentsEstimate) :
    updateProgress story st now =
      some (specGlobalProgress st.currentSegmentIndex (now - st.startTime) buf.duration
        story.totalSegmentsEstimate) := by
  unfold updateProgress
  rw [if_pos ⟨hplay, hbuf, hctx⟩, hseg]
  unfold specGlobalProgress
  have htotpos : (0 : ℚ) < (story.totalSegmentsEstimate : ℚ) := by
    have h0 : 0 < story.totalSegmentsEstimate := Nat.lt_of_le_of_lt (Nat.zero_le _) hidx
    exact_mod_cast h0
  set q := min 1 ((now - st.startTime) / buf.duration) with hq
  have hq0 : 0 ≤ q := le_min (by norm_num) (div_nonneg (by linarith) (le_of_lt hdur))
  have hle : (st.currentSegmentIndex : ℚ) + q ≤ (story.totalSegmentsEstimate : ℚ) := by
    have hnat : (st.currentSegmentIndex : ℚ) + 1 ≤ (story.totalSegmentsEstimate : ℚ) := by
      exact_mod_cast Nat.succ_le_of_lt hidx
    have hq1 : q ≤ 1 := min_le_left _ _
    linarith
  have hv1 : ((st.currentSegmentIndex : ℚ) + q) / (story.totalSegmentsEstimate : ℚ) ≤ 1 :=
    (div_le_one htotpos).mpr hle
  have hv0 : 0 ≤ ((st.currentSegmentIndex : ℚ) + q) / (story.totalSegmentsEstimate : ℚ) :=
    div_nonneg (add_nonneg (Nat.cast_nonneg _) hq0) (le_of_lt htotpos)
  rw [min_eq_right hv1, max_eq_right hv0]

/-- Concrete instance of C5: ten seconds into the twenty-second chapter 1
of the two-chapter demo story, the emitted value is the clamped spec
value. -/
theorem progress_tick_formula_witness :
    updateProgress demoStory demoPlayer 10 = some (specGlobalProgress 0 (10 - 0) 20 2) :=
  progress_tick_formula demoStory demoPlayer 10 ⟨20⟩ rfl rfl rfl rfl (by norm_num)
    (by norm_num [demoPlayer, initPlayer]) (by norm_num [demoPlayer, demoStory, initPlayer])

/-- Claim C6: when playback reaches the chapter boundary and the next
chapter's audio is not yet present (with more chapters expected), the
engine enters Buffering at that chapter with offset 0; no progress value is
emitted while Buffering; and the moment the awaited chapter's audio is
present while buffering and playing, Buffering is cleared and that chapter
starts at offset 0. -/
theorem buffering_stall_and_resume (story : AudioStory) (st : PlayerState) (now : ℚ) :
    ((story.segments[st.currentSegmentIndex + 1]?).bind (fun s => s.audioBuffer) = none →
      (st.currentSegmentIndex + 1 < story.totalSegmentsEstimate ∨
        (story.segments[st.currentSegmentIndex + 1]?).isSome = true) →
      (handleSegmentEnd story st now).isBuffering = true ∧
      (handleSegmentEnd story st now).currentSegmentIndex = st.currentSegmentIndex + 1 ∧
      (handleSegmentEnd story st now).segmentOffset = 0 ∧
      (handleSegmentEnd story st now).isPlaying = st.isPlaying) ∧
    (st.isBuffering = true → updateProgress story st now = none) ∧
    (∀ seg, story.segments[st.currentSegmentIndex]? = some seg →
      seg.audioBuffer.isSome = true → st.isBuffering = true → st.isPlaying = true →
      (bufferWatcher story st now).isBuffering = false ∧
      (bufferWatcher story st now).source = some (seg, 0) ∧
      (bufferWatcher story st now).startTime = now ∧
      (bufferWatcher story st now).isPlaying = true ∧
      (bufferWatcher story st now).currentSegmentIndex = st.currentSegmentIndex) := by
  refine ⟨?_, ?_, ?_⟩
  · intro hmiss hmore
    rcases hseg : story.segments[st.currentSegmentIndex + 1]? with _ | seg
    · have hlt : st.currentSegmentIndex + 1 < story.totalSegmentsEstimate := by
        rcases hmore with h | h
        · exact h
        · rw [hseg] at h
          simp at h
      simp [handleSegmentEnd, hseg, hlt]
    · rw [hseg] at hmiss
      have hmiss2 : seg.audioBuffer = none := hmiss
      simp [handleSegmentEnd, hseg, hmiss2]
  · intro hb
    simp [updateProgress, hb]
  · intro seg hseg haud hb hp
    rcases ha : seg.audioBuffer with _ | buf
    · rw [ha] at haud
      simp at haud
    · simp [bufferWatcher, hseg, hb, hp, ha, playSegment, stopAudio, sub_zero]

/-- Concrete instance of C6, on the demo story with the player buffering
chapter 2: no progress is emitted, and delivering chapter 2's audio
resolves the stall at offset 0. -/
theorem buffering_stall_and_resume_witness :
    updateProgress demoStory demoBufferingPlayer 3 = none ∧
    ((bufferWatcher { demoStory with segments := demoStory.segments ++ [demoSeg2] }
        demoBufferingPlayer 3).isBuffering = false ∧
      (bufferWatcher { demoStory with segments := demoStory.segments ++ [demoSeg2] }
        demoBufferingPlayer 3).source = some (demoSeg2, 0)) := by
  have h1 := (buffering_stall_and_resume demoStory demoBufferingPlayer 3).2.1 rfl
  have h2 := (buffering_stall_and_resume
    { demoStory with segments := demoStory.segments ++ [demoSeg2] }
    demoBufferingPlayer 3).2.2 demoSeg2 rfl rfl rfl rfl
  exact ⟨h1, h2.1, h2.2.1⟩

/-- Claim C8: pausing while a chapter is playing records the elapsed offset
within that chapter as audio-clock time minus the recorded start time and
stops the source; toggling again resumes the same chapter at that recorded
offset (the stored segment value, with no fetch), with the new start time
set so the elapsed clock continues from the offset. -/
theorem pause_resume_offset (story : AudioStory) (st : PlayerState) (now1 now2 : ℚ)
    (seg : StorySegment)
    (hplay : st.isPlaying = true) (hctx : st.hasAudioCtx = true) (hbuf : st.isBuffering = false)
    (hseg : story.segments[st.currentSegmentIndex]? = some seg)
    (haud : seg.audioBuffer.isSome = true) :
    (togglePlayback story st now1).isPlaying = false ∧
    (togglePlayback story st now1).segmentOffset = now1 - st.startTime ∧
    (togglePlayback story st now1).source = none ∧
    (togglePlayback story st now1).currentSegmentIndex = st.currentSegmentIndex ∧
    (togglePlayback story (togglePlayback story st now1) now2).isPlaying = true ∧
    (togglePlayback story (togglePlayback story st now1) now2).isBuffering = false ∧
    (togglePlayback story (togglePlayback story st now1) now2).currentSegmentIndex =
      st.currentSegmentIndex ∧
    (togglePlayback story (togglePlayback story st now1) now2).source =
      some (seg, now1 - st.startTime) ∧
    (togglePlayback story (togglePlayback story st now1) now2).startTime =
      now2 - (now1 - st.startTime) := by
  rcases ha : seg.audioBuffer with _ | buf
  · rw [ha] at haud
    simp at haud
  · simp [togglePlayback, stopAudio, playSegment, hplay, hctx, hbuf, hseg, ha]

/-- Concrete instance of C8: pause chapter 1 of the demo story at time 5
and resume at time 9 — the offset 5 is recorded and replayed, and the new
start time is 4. -/
theorem pause_resume_offset_witness :
    (togglePlayback demoStory demoPlayer 5).isPlaying = false ∧
    (togglePlayback demoStory demoPlayer 5).segmentOffset = 5 - demoPlayer.startTime ∧
    (togglePlayback demoStory demoPlayer 5).source = none ∧
    (togglePlayback demoStory demoPlayer 5).currentSegmentIndex = demoPlayer.currentSegmentIndex ∧
    (togglePlayback demoStory (togglePlayback demoStory demoPlayer 5) 9).isPlaying = true ∧
    (togglePlayback demoStory (togglePlayback demoStory demoPlayer 5) 9).isBuffering = false ∧
    (togglePlayback demoStory (togglePlayback demoStory demoPlayer 5) 9).currentSegmentIndex =
      demoPlayer.currentSegmentIndex ∧
    (togglePlayback demoStory (togglePlayback demoStory demoPlayer 5) 9).source =
      some ({ index := 1, text := "A1", audioBuffer := some ⟨20⟩ }, 5 - demoPlayer.startTime) ∧
    (togglePlayback demoStory (togglePlayback demoStory demoPlayer 5) 9).startTime =
      9 - (5 - demoPlayer.startTime) :=
  pause_resume_offset demoStory demoPlayer 5 9
    { index := 1, text := "A1", audioBuffer := some ⟨20⟩ } rfl rfl rfl rfl rfl

lemma contiguousFrom_get {l : List StorySegment} :
    ∀ {k : Nat}, contiguousFrom k l = true →
      ∀ j (hj : j < l.length), (l.get ⟨j, hj⟩).index = k + j + 1 := by
  induction l with
  | nil =>
    intro k _ j hj
    simp at hj
  | cons a t ih =>
    intro k h j hj
    simp only [contiguousFrom, Bool.and_eq_true, beq_iff_eq] at h
    cases j with
    | zero => simpa using h.1
    | succ j2 =>
      have h2 := ih h.2 j2 (by simpa using hj)
      simp only [List.get_cons_succ]
      omega

unseal List.merge List.mergeSort in
/-- Counterexample to C7 as stated: a reset issued while journey A's
chapter-3 generation is in flight (the first six events of the stale
session end with that reset) leaves the generation lock held, not in its
initial released state; and once journey B starts, journey A's stale
completion delivers the discarded journey's chapter text "A3" into journey
B's story, where it is presented. -/
theorem reset_counterexample :
    (exStale.take 6).getLast? = some Event.reset ∧
    (runEvents (exStale.take 6)).isGenerating = true ∧
    initCore.isGenerating = false ∧
    (presentedSegments (runEvents exStale)).any (fun s => s.text == "A3") = true :=
  ⟨rfl, rfl, rfl, rfl⟩

/-- Claim C7 (amended): resetting clears the story, route, cursor and
smooth progress and returns to PLANNING, which unmounts the player — so no
chapter is presented, and the unmount cleanup stops the audio source; the
reset handler itself leaves the generation lock, the background flag and
any in-flight attempt untouched, so the post-reset state equals the
pre-journey initial state exactly when no generation was in flight at the
reset (a stale in-flight attempt only releases the lock when it later
ends, and may deliver into a subsequently started journey). -/
theorem reset_clears_session :
    (∀ st, (handleReset st).appState = PLANNING ∧ (handleReset st).route = none ∧
      (handleReset st).story = none ∧ (handleReset st).currentPlayingIndex = 0 ∧
      (handleReset st).smoothProgress = 0 ∧ presentedSegments (handleReset st) = []) ∧
    (∀ st, (handleReset st).isGenerating = st.isGenerating ∧
      (handleReset st).isBackgroundGenerating = st.isBackgroundGenerating ∧
      (handleReset st).inflight = st.inflight) ∧
    (∀ st, st.isGenerating = false → st.isBackgroundGenerating = false → st.inflight = [] →
      handleReset st = initCore) ∧
    (∀ p : PlayerState, (stopAudio p).source = none) := by
  refine ⟨?_, ?_, ?_, ?_⟩
  · intro st
    exact ⟨rfl, rfl, rfl, rfl, rfl, rfl⟩
  · intro st
    exact ⟨rfl, rfl, rfl⟩
  · intro st h1 h2 h3
    cases st
    simp_all [handleReset, initCore]
  · intro p
    rfl

/-- Concrete instance of C7 (amended): resetting the demo journey, which
has nothing in flight, restores exactly the initial state. -/
theorem reset_clears_session_witness :
    handleReset demoCore1 = initCore :=
  reset_clears_session.2.2.1 demoCore1 rfl rfl rfl

unseal List.merge List.mergeSort in
/-- Counterexample to C10 as stated: in the stale session, journey A's
in-flight chapter-3 completion survives the reset and lands in journey B's
fresh story, which then stores indices [1, 3] — the chapter at array
position 1 has index 3, not 2. -/
theorem contiguity_counterexample :
    ((runEvents exStale).story.map (fun s => s.segments.map StorySegment.index)) =
      some [1, 3] ∧
    ((runEvents exStale).story.map (fun s => contiguous s.segments)) = some false :=
  ⟨rfl, rfl⟩

/-- Claim C10 (amended): in every session that performs no reset — so no
stale attempt can cross from a discarded journey into a new one — every
reachable story is index-contiguous: the chapter stored at array position k
has index k + 1, because the scheduler only ever requests chapter
buffered + 1 and the guarded insert then appends exactly that chapter. -/
theorem story_contiguous_without_reset (evs : List Event) (hre : Event.reset ∉ evs) :
    ∀ s, (runEvents evs).story = some s → contiguous s.segments = true ∧
      ∀ j (hj : j < s.segments.length), (s.segments.get ⟨j, hj⟩).index = j + 1 := by
  intro s hs
  have hc := ((runEvents_contigInv evs hre).2.2.2 s hs).1
  refine ⟨hc, ?_⟩
  intro j hj
  have hg := contiguousFrom_get (k := 0) hc j hj
  omega

unseal List.merge List.mergeSort in
/-- Concrete instance of C10 (amended): the first five events of the stale
session perform no reset, and the story they produce is contiguous. -/
theorem story_contiguous_without_reset_witness :
    contiguous storyA5.segments = true :=
  (story_contiguous_without_reset (exStale.take 5) (by decide) storyA5 rfl).1

end DigitalJourney
